import Mathlib

/-!
Verification of the ProseMirror ↔ Micromerge bridge (`src/bridge.ts`).

The bridge translates between two coordinate systems for one rich-text
document: the CRDT engine's flat character sequence, and the editor's
tree document, which wraps all inline content in a single paragraph node
(so tree positions are offset by one from flat indices).

Positions are modelled as `Int` (TypeScript numbers used as integers, so
that the `- 1` adjustments never truncate).  A character value of the
engine (`Char` in `micromerge`, which is a TypeScript string) is
modelled as a Lean `String`.
-/

namespace Bridge

/-- A runtime attribute value, as inspected by `typeof` checks in the
bridge (`typeof step.mark.attrs.id !== "string"` etc.). -/
inductive JValue
  | str (s : String)
  | num (n : Int)
  | bool (b : Bool)
deriving DecidableEq

/-- An attribute object: a finite map from attribute names to values
(`step.mark.attrs`, `patch.attrs`). -/
def Attrs : Type := List (String × JValue)

instance : DecidableEq Attrs := by
  unfold Attrs
  infer_instance

/-- `attrs[key]` lookup returning the value when present. -/
def getAttr (attrs : Attrs) (key : String) : Option JValue :=
  match attrs with
  | [] => none
  | (k, v) :: rest => if k = key then some v else getAttr rest key

/-- `typeof attrs[key] === "string"`: the attribute is present and is a
string. -/
def getStringAttr (attrs : Option Attrs) (key : String) : Option String :=
  match attrs with
  | none => none
  | some attrs =>
    match getAttr attrs key with
    | some (JValue.str s) => some s
    | _ => none

/-- Modelled from the spec: `Micromerge.contentKey`, the reserved key
naming the root content list.  The engine (`micromerge.ts`) is not under
`src/`; only the key's existence matters here, never its value. -/
def contentKey : String := "content"

/-- A ProseMirror step, as far as the bridge inspects it: a
`ReplaceStep` (whose `slice` field the bridge tests for presence; the
slice is modelled by its plain-text content, obtained in the source via
`slice.content.textBetween`), an `AddMarkStep` or a `RemoveMarkStep`
(mark name plus attribute object, which may be absent).  These also
serve as the steps the Remote Patch Applier appends to a transaction
(`transaction.replace` / `.addMark` / `.removeMark`). -/
inductive Step
  | replace (fromPos toPos : Int) (slice : Option String)
  | addMark (fromPos toPos : Int) (markName : String) (attrs : Option Attrs)
  | removeMark (fromPos toPos : Int) (markName : String) (attrs : Option Attrs)
deriving DecidableEq

/-- Replacement of the tree range `[fromPos, toPos)` by the text `s` in
the single paragraph's text `d`: tree position `p` addresses text offset
`p - 1` (one structural token for the open paragraph node). -/
def treeReplace (d : List Char) (fromPos toPos : Int) (s : List Char) : List Char :=
  d.take (fromPos - 1).toNat ++ s ++ d.drop (toPos - 1).toNat

/-- A ProseMirror transaction, as used by the bridge: the current tree
document (the text of its single paragraph) and the accumulated steps. -/
structure Transaction where
  doc : List Char
  steps : List Step
deriving DecidableEq

/-- `transaction.replace(fromPos, toPos, slice)`. -/
def Transaction.replaceRange (t : Transaction) (fromPos toPos : Int) (s : String) :
    Transaction :=
  { doc := treeReplace t.doc fromPos toPos s.data
    steps := t.steps ++ [Step.replace fromPos toPos (some s)] }

/-- `transaction.addMark(fromPos, toPos, mark)`. -/
def Transaction.addMarkRange (t : Transaction) (fromPos toPos : Int)
    (markName : String) (attrs : Option Attrs) : Transaction :=
  { doc := t.doc
    steps := t.steps ++ [Step.addMark fromPos toPos markName attrs] }

/-- `transaction.removeMark(fromPos, toPos, mark)`. -/
def Transaction.removeMarkRange (t : Transaction) (fromPos toPos : Int)
    (markName : String) (attrs : Option Attrs) : Transaction :=
  { doc := t.doc
    steps := t.steps ++ [Step.removeMark fromPos toPos markName attrs] }

/-- `doc.content.size` of the tree document: the paragraph's text length
plus the two structural tokens of the paragraph node. -/
def pmContentSize (d : List Char) : Int :=
  (d.length : Int) + 2

/-- A Micromerge patch, in flat-sequence coordinates.  The source's
`Patch` is a closed union over the `action` field; `unknown` stands for
any runtime value whose `action` lies outside that closed set, which the
source's exhaustive `switch` falls through to `unreachable(patch)`. -/
inductive Patch
  | insert (index : Int) (values : List String)
  | delete (index : Int) (count : Int)
  | makeList (path : List String) (key : String)
  | addMark (start endPos : Int) (markType : String) (attrs : Option Attrs)
  | removeMark (start endPos : Int) (markType : String) (attrs : Option Attrs)
  | unknown (action : String)
deriving DecidableEq

/-- A failure while applying a patch: the fall-through to
`unreachable(patch)` for an action outside the closed set, or
`schema.text(patch.values[0])` with no value present (ProseMirror
rejects the resulting invalid text node). -/
inductive ApplyError
  | unreachable
  | invalidTextNode
deriving DecidableEq

/-- `applyPatchToTransaction` from `src/bridge.ts`: extends a
transaction with steps incorporating the effect of one patch.
`insert` and `delete` translate the flat index by `+ 1` for the
paragraph node; `insert` inserts `patch.values[0]`; `makeList` at the
root content key clears the whole document; `addMark`/`removeMark`
translate `start` by `+ 1` and `end` by `+ 1` (paragraph offset)
`+ 1` (inclusive end to exclusive end). -/
def applyPatchToTransaction (t : Transaction) (patch : Patch) :
    Except ApplyError Transaction :=
  match patch with
  | Patch.insert index values =>
    let idx := index + 1
    match values with
    | [] => Except.error ApplyError.invalidTextNode
    | v :: _ => Except.ok (t.replaceRange idx idx v)
  | Patch.delete index count =>
    let idx := index + 1
    Except.ok (t.replaceRange idx (idx + count) "")
  | Patch.makeList path key =>
    if path = [] ∧ key = contentKey then
      Except.ok (t.replaceRange 0 (pmContentSize t.doc) "")
    else
      Except.ok t
  | Patch.addMark start endPos markType attrs =>
    Except.ok (t.addMarkRange (start + 1) (endPos + 1 + 1) markType attrs)
  | Patch.removeMark start endPos markType attrs =>
    Except.ok (t.removeMarkRange (start + 1) (endPos + 1 + 1) markType attrs)
  | Patch.unknown _ => Except.error ApplyError.unreachable

/-- The patch loop of the subscribe handler: patches of one change are
folded into the transaction in engine order. -/
def applyPatches (t : Transaction) : List Patch → Except ApplyError Transaction
  | [] => Except.ok t
  | p :: rest => do
    let t' ← applyPatchToTransaction t p
    applyPatches t' rest

/-- `contentPosFromProsemirrorPos` from `src/bridge.ts`: a position in
the ProseMirror doc to an offset in the CRDT content string. -/
def contentPosFromProsemirrorPos (position : Int) : Int :=
  position - 1

/-- Modelled from the spec: `ALL_MARKS` of `schema.ts` (not under
`src/`), the mark kinds in fixed declaration order.  The spec mandates a
fixed declaration order; the four kinds are the ones `bridge.ts` itself
uses (`strong`/`em` in the keymap, `comment`/`link` in the attribute
checks). -/
def ALL_MARKS : List String := ["strong", "em", "comment", "link"]

/-- Modelled from the spec: `isMarkType` of `schema.ts` (not under
`src/`), recognizing exactly the declared mark kinds. -/
def isMarkType (name : String) : Bool :=
  ALL_MARKS.contains name

/-- A compilation failure of the Local Edit Compiler: the
`throw new Error(...)` cases of `applyTransaction` in `src/bridge.ts`
(spec taxonomy: UnsupportedMarkError, MissingAttributeError). -/
inductive CompileError
  | unsupportedMark (name : String)
  | missingAttribute (markType : String)
deriving DecidableEq

/-- An input operation built for the CRDT engine (`InputOperation` of
`micromerge`), as constructed by `applyTransaction`; every pushed
operation carries `path: [Micromerge.contentKey]`. -/
inductive InputOp
  | insert (path : List String) (index : Int) (values : List String)
  | delete (path : List String) (index : Int) (count : Int)
  | addMark (path : List String) (start endPos : Int) (markType : String)
      (attrs : Option Attrs)
  | removeMark (path : List String) (start endPos : Int) (markType : String)
      (attrs : Option Attrs)
deriving DecidableEq

/-- `insertedContent.split("")`: one single-character string per
character of the inserted text. -/
def splitChars (s : String) : List String :=
  s.data.map (fun c => String.mk [c])

/-- The operations `applyTransaction` pushes for one step.

For a `ReplaceStep` whose slice is present: a `delete` when
`fromPos ≠ toPos`, then always an `insert` of the slice's characters
(empty list of values for an empty slice); with no slice, only a
`delete`.  For `AddMarkStep`/`RemoveMarkStep`: unrecognized mark names
fail; `comment` requires a string `id` attribute on both; `link`
requires a string `url` attribute on add only; mark ranges translate
`fromPos` directly and `toPos - 1` (exclusive to inclusive end). -/
def compileStep : Step → Except CompileError (List InputOp)
  | Step.replace fromPos toPos slice =>
    match slice with
    | some s =>
      Except.ok
        ((if fromPos ≠ toPos then
            [InputOp.delete [contentKey] (contentPosFromProsemirrorPos fromPos)
              (toPos - fromPos)]
          else []) ++
          [InputOp.insert [contentKey] (contentPosFromProsemirrorPos fromPos)
            (splitChars s)])
    | none =>
      Except.ok
        [InputOp.delete [contentKey] (contentPosFromProsemirrorPos fromPos)
          (toPos - fromPos)]
  | Step.addMark fromPos toPos markName attrs =>
    if isMarkType markName = false then
      Except.error (CompileError.unsupportedMark markName)
    else
      let start := contentPosFromProsemirrorPos fromPos
      let endPos := contentPosFromProsemirrorPos (toPos - 1)
      if markName = "comment" then
        match getStringAttr attrs "id" with
        | some _ =>
          Except.ok [InputOp.addMark [contentKey] start endPos markName attrs]
        | none => Except.error (CompileError.missingAttribute markName)
      else if markName = "link" then
        match getStringAttr attrs "url" with
        | some _ =>
          Except.ok [InputOp.addMark [contentKey] start endPos markName attrs]
        | none => Except.error (CompileError.missingAttribute markName)
      else
        Except.ok [InputOp.addMark [contentKey] start endPos markName none]
  | Step.removeMark fromPos toPos markName attrs =>
    if isMarkType markName = false then
      Except.error (CompileError.unsupportedMark markName)
    else
      let start := contentPosFromProsemirrorPos fromPos
      let endPos := contentPosFromProsemirrorPos (toPos - 1)
      if markName = "comment" then
        match getStringAttr attrs "id" with
        | some _ =>
          Except.ok [InputOp.removeMark [contentKey] start endPos markName attrs]
        | none => Except.error (CompileError.missingAttribute markName)
      else
        Except.ok [InputOp.removeMark [contentKey] start endPos markName none]

/-- The step loop of `applyTransaction`: operations of all steps are
accumulated in step order (an error anywhere aborts the compilation). -/
def compileSteps : List Step → Except CompileError (List InputOp)
  | [] => Except.ok []
  | st :: rest => do
    let ops ← compileStep st
    let more ← compileSteps rest
    Except.ok (ops ++ more)

/-- `applyTransaction` from `src/bridge.ts`: compiles a transaction's
steps and, when at least one operation was produced, submits them all as
one change (`doc.change(operations)`, modelled by `some operations`);
with no operations it returns `null` (modelled `none`) and never calls
`doc.change`. -/
def applyTransaction (steps : List Step) :
    Except CompileError (Option (List InputOp)) := do
  let operations ← compileSteps steps
  if operations.length > 0 then
    Except.ok (some operations)
  else
    Except.ok none

/-- The value a span's mark map associates to one mark kind: either a
list of values (multi-valued marks) or a single value; the single case
carries the `active` flag the source reads (`markValue.active`), and
the rest of the value is its attribute object. -/
structure MarkEntry where
  active : Bool
  attrs : Attrs
deriving DecidableEq

/-- `span.marks[markType]`: a list of values (`Array.isArray`) or a
single value. -/
inductive SpanMarkValue
  | list (entries : List MarkEntry)
  | single (value : MarkEntry)
deriving DecidableEq

/-- `FormatSpanWithText` of `micromerge`, as consumed by
`prosemirrorDocFromCRDT`: the span's text and its mark map. -/
structure FormatSpanWithText where
  text : String
  marks : List (String × SpanMarkValue)
deriving DecidableEq

/-- `span.marks[markType]` lookup. -/
def lookupMark (marks : List (String × SpanMarkValue)) (markType : String) :
    Option SpanMarkValue :=
  match marks with
  | [] => none
  | (k, v) :: rest => if k = markType then some v else lookupMark rest markType

/-- A tree document node (`doc`, `paragraph`, or a text node with
marks). -/
inductive PMNode
  | doc (children : List PMNode)
  | paragraph (children : List PMNode)
  | text (s : String) (marks : List (String × MarkEntry))

/-- The `marks` array built for one span by `prosemirrorDocFromCRDT`:
the `for (const markType of ALL_MARKS)` loop, pushing onto a growing
array — a kind with no value is skipped; a list value pushes one mark
per entry; a single value pushes a mark only when `active`. -/
def spanMarkInstances (span : FormatSpanWithText) : List (String × MarkEntry) :=
  ALL_MARKS.foldl
    (fun acc markType =>
      match lookupMark span.marks markType with
      | none => acc
      | some (SpanMarkValue.list entries) =>
        acc ++ entries.map (fun v => (markType, v))
      | some (SpanMarkValue.single v) =>
        if v.active then acc ++ [(markType, v)] else acc)
    []

/-- `prosemirrorDocFromCRDT` from `src/bridge.ts`: the Initial
Projection Builder.  A single span with empty text short-circuits to a
doc holding one empty paragraph; otherwise the doc holds one paragraph
with one text node per span. -/
def prosemirrorDocFromCRDT (spans : List FormatSpanWithText) : PMNode :=
  if spans.length = 1 ∧ (spans.headD ⟨"", []⟩).text = "" then
    PMNode.doc [PMNode.paragraph []]
  else
    PMNode.doc
      [PMNode.paragraph
        (spans.map (fun span => PMNode.text span.text (spanMarkInstances span)))]

/-- The per-change loop body of the subscribe handler in `createEditor`:
`doc.applyChange(change)` yields the next engine state and the patches,
the patches extend a fresh transaction (`state.tr`) on the current view
state, and `state.apply(transaction)` installs the transaction's
resulting tree document.  The engine is external (`micromerge`), so its
`applyChange` is a parameter; the `Nat` counts its invocations. -/
def processChanges {D C : Type} (applyChangeFn : D → C → D × List Patch) :
    D → List Char → List C → Except ApplyError (D × List Char × Nat)
  | doc, state, [] => Except.ok (doc, state, 0)
  | doc, state, change :: rest => do
    let (doc', patches) := applyChangeFn doc change
    let transaction ← applyPatches { doc := state, steps := [] } patches
    let state' := transaction.doc
    let (doc'', state'', n) ← processChanges applyChangeFn doc' state' rest
    Except.ok (doc'', state'', n + 1)

/-- The subscribe handler registered in `createEditor`: an empty batch
returns at once, before any engine call and before
`view.updateState`; otherwise every change is processed and the view
state is updated.  The final `Bool` records whether `view.updateState`
was called. -/
def handleIncomingChanges {D C : Type} (applyChangeFn : D → C → D × List Patch)
    (doc : D) (state : List Char) (incomingChanges : List C) :
    Except ApplyError (D × List Char × Nat × Bool) :=
  if incomingChanges.length = 0 then
    Except.ok (doc, state, 0, false)
  else do
    let (doc', state', n) ← processChanges applyChangeFn doc state incomingChanges
    Except.ok (doc', state', n, true)

/-! ### Spec-side formulations

Definitions written from the spec's words, to be compared with the
embeddings above. -/

/-- The mark instances one mark kind contributes for a span: none for
an absent kind, one per entry of a list value, one for an active single
value. -/
def markInstancesOfKind (span : FormatSpanWithText) (markType : String) :
    List (String × MarkEntry) :=
  match lookupMark span.marks markType with
  | none => []
  | some (SpanMarkValue.list entries) => entries.map (fun v => (markType, v))
  | some (SpanMarkValue.single v) => if v.active then [(markType, v)] else []

/-- The spec's description of the mark instances of one span: mark kinds
in declaration order, each kind contributing its instances. -/
def spanMarkInstancesSpec (span : FormatSpanWithText) :
    List (String × MarkEntry) :=
  ALL_MARKS.flatMap (markInstancesOfKind span)

/-- The spec's description of compilation: each step compiled on its
own, the per-step operation lists concatenated in step order. -/
def compileStepsSpec (steps : List Step) : Except CompileError (List InputOp) :=
  (steps.mapM compileStep).map List.flatten

/-- An operation list contains an `insert` operation. -/
def hasInsertOp (ops : List InputOp) : Bool :=
  ops.any (fun op =>
    match op with
    | InputOp.insert _ _ _ => true
    | _ => false)

/-- The operations of a successful compilation (empty on error). -/
def okOps (r : Except CompileError (List InputOp)) : List InputOp :=
  match r with
  | Except.ok ops => ops
  | Except.error _ => []

end Bridge

deriving instance DecidableEq for Except

namespace Bridge

/-! ### Helper lemmas -/

lemma treeReplace_clear (d : List Char) :
    treeReplace d 0 (pmContentSize d) [] = [] := by
  unfold treeReplace pmContentSize
  have h1 : ((0 : Int) - 1).toNat = 0 := rfl
  have h2 : (((d.length : Int) + 2) - 1).toNat = d.length + 1 := by omega
  rw [h1, h2]
  simp [List.drop_eq_nil_iff]

lemma spanMarkInstances_step (span : FormatSpanWithText)
    (acc : List (String × MarkEntry)) (markType : String) :
    (match lookupMark span.marks markType with
      | none => acc
      | some (SpanMarkValue.list entries) =>
        acc ++ entries.map (fun v => (markType, v))
      | some (SpanMarkValue.single v) =>
        if v.active then acc ++ [(markType, v)] else acc) =
      acc ++ markInstancesOfKind span markType := by
  unfold markInstancesOfKind
  cases h : lookupMark span.marks markType with
  | none => simp
  | some v =>
    cases v with
    | list entries => simp
    | single v => by_cases hv : v.active <;> simp [hv]

lemma spanMarkInstances_foldl (span : FormatSpanWithText) :
    ∀ (l : List String) (acc : List (String × MarkEntry)),
      l.foldl
        (fun acc markType =>
          match lookupMark span.marks markType with
          | none => acc
          | some (SpanMarkValue.list entries) =>
            acc ++ entries.map (fun v => (markType, v))
          | some (SpanMarkValue.single v) =>
            if v.active then acc ++ [(markType, v)] else acc)
        acc = acc ++ l.flatMap (markInstancesOfKind span) := by
  intro l
  induction l with
  | nil => intro acc; simp
  | cons x xs ih =>
    intro acc
    rw [List.foldl_cons, ih, spanMarkInstances_step, List.flatMap_cons,
      List.append_assoc]

lemma compileSteps_eq_spec (steps : List Step) :
    compileSteps steps = compileStepsSpec steps := by
  induction steps with
  | nil => rfl
  | cons s rest ih =>
    unfold compileSteps compileStepsSpec
    rw [List.mapM_cons]
    cases h1 : compileStep s with
    | error e =>
      simp [h1, Except.map, Bind.bind, Except.bind]
    | ok ops =>
      cases h3 : List.mapM compileStep rest with
      | error e =>
        have h2 : compileSteps rest = Except.error e := by
          rw [ih]; unfold compileStepsSpec; rw [h3]; rfl
        simp [h1, h2, h3, Except.map, Bind.bind, Except.bind]
      | ok opss =>
        have h2 : compileSteps rest = Except.ok opss.flatten := by
          rw [ih]; unfold compileStepsSpec; rw [h3]; rfl
        simp [h1, h2, h3, Except.map, Bind.bind, Except.bind, Pure.pure,
          Except.pure]

/-! ### Claims -/

/-- C1: the Remote Patch Applier maps an `addMark` patch and a
`removeMark` patch alike to the tree mark range
`[start + 1, endPos + 2)`, and the Local Edit Compiler's inverse
coordinate transform (`contentPosFromProsemirrorPos` of the start, and
of the exclusive end minus one) reproduces the patch's `start`/`endPos`
exactly; moreover compiling an add-mark step and a remove-mark step over
that very tree range emits the flat range `start`/`endPos` again. -/
theorem mark_patch_coordinate_round_trip (t : Transaction)
    (start endPos : Int) (markType : String) (attrs : Option Attrs) :
    applyPatchToTransaction t (Patch.addMark start endPos markType attrs) =
        Except.ok (t.addMarkRange (start + 1) (endPos + 2) markType attrs)
      ∧ applyPatchToTransaction t (Patch.removeMark start endPos markType attrs) =
          Except.ok (t.removeMarkRange (start + 1) (endPos + 2) markType attrs)
      ∧ contentPosFromProsemirrorPos (start + 1) = start
      ∧ contentPosFromProsemirrorPos (endPos + 2 - 1) = endPos
      ∧ compileStep (Step.addMark (start + 1) (endPos + 2) "strong" attrs) =
          Except.ok [InputOp.addMark [contentKey] start endPos "strong" none]
      ∧ compileStep (Step.removeMark (start + 1) (endPos + 2) "strong" attrs) =
          Except.ok [InputOp.removeMark [contentKey] start endPos "strong" none] := by
  have h : endPos + 1 + 1 = endPos + 2 := by omega
  have h1 : isMarkType "strong" = true := by decide
  have h2 : contentPosFromProsemirrorPos (start + 1) = start := by
    unfold contentPosFromProsemirrorPos; omega
  have h3 : contentPosFromProsemirrorPos (endPos + 2 - 1) = endPos := by
    unfold contentPosFromProsemirrorPos; omega
  refine ⟨?_, ?_, h2, h3, ?_, ?_⟩
  · show Except.ok (t.addMarkRange (start + 1) (endPos + 1 + 1) markType attrs) =
      Except.ok (t.addMarkRange (start + 1) (endPos + 2) markType attrs)
    rw [h]
  · show Except.ok (t.removeMarkRange (start + 1) (endPos + 1 + 1) markType attrs) =
      Except.ok (t.removeMarkRange (start + 1) (endPos + 2) markType attrs)
    rw [h]
  · unfold compileStep
    simp [h1, h2, h3]
  · unfold compileStep
    simp [h1, h2, h3]

/-- C6: a `makeList` patch clears the whole document range exactly when
its path is empty and its key is the reserved root content key, and is
the identity on the transaction otherwise; the cleared document is
empty. -/
theorem makeList_patch_behavior (t : Transaction) (path : List String)
    (key : String) :
    applyPatchToTransaction t (Patch.makeList path key) =
        Except.ok
          (if path = [] ∧ key = contentKey then
            t.replaceRange 0 (pmContentSize t.doc) ""
          else t)
      ∧ (t.replaceRange 0 (pmContentSize t.doc) "").doc = [] := by
  constructor
  · unfold applyPatchToTransaction
    by_cases h : path = [] ∧ key = contentKey <;> simp [h]
  · show treeReplace t.doc 0 (pmContentSize t.doc) "".data = []
    exact treeReplace_clear t.doc

/-- C7: exactly one span with empty text projects to a doc holding one
empty paragraph and no text node. -/
theorem empty_span_projection (marks : List (String × SpanMarkValue)) :
    prosemirrorDocFromCRDT [⟨"", marks⟩] = PMNode.doc [PMNode.paragraph []] := by
  unfold prosemirrorDocFromCRDT
  simp

/-- C8: `applyPatchToTransaction` succeeds on the five patch variants of
the closed set (with a value present for `insert`), and any patch whose
action lies outside the set hits the `unreachable` branch — a fatal
error, never a silently unchanged transaction. -/
theorem patch_closed_variant_dispatch (t : Transaction) (action : String) :
    applyPatchToTransaction t (Patch.unknown action) =
        Except.error ApplyError.unreachable
      ∧ (∀ t', applyPatchToTransaction t (Patch.unknown action) ≠ Except.ok t')
      ∧ (∀ (i : Int) (v : String) (vs : List String),
          (applyPatchToTransaction t (Patch.insert i (v :: vs))).isOk = true)
      ∧ (∀ (i c : Int),
          (applyPatchToTransaction t (Patch.delete i c)).isOk = true)
      ∧ (∀ (path : List String) (key : String),
          (applyPatchToTransaction t (Patch.makeList path key)).isOk = true)
      ∧ (∀ (s e : Int) (mt : String) (a : Option Attrs),
          (applyPatchToTransaction t (Patch.addMark s e mt a)).isOk = true)
      ∧ (∀ (s e : Int) (mt : String) (a : Option Attrs),
          (applyPatchToTransaction t (Patch.removeMark s e mt a)).isOk = true) := by
  refine ⟨?_, ?_, ?_, ?_, ?_, ?_, ?_⟩
  · rfl
  · intro t' h
    exact Except.noConfusion h
  · intro i v vs; rfl
  · intro i c; rfl
  · intro path key
    unfold applyPatchToTransaction
    by_cases h : path = [] ∧ key = contentKey <;> simp [h, Except.isOk, Except.toBool]
  · intro s e mt a; rfl
  · intro s e mt a; rfl

/-- C2 counterexample: the insert patch `insert(0, ['h','i'])` applied
to a transaction over document "lo" inserts only the first value, giving
tree text "hlo" rather than the claimed "hilo". -/
theorem insert_patch_drops_tail_values :
    applyPatchToTransaction ⟨"lo".data, []⟩ (Patch.insert 0 ["h", "i"]) =
        Except.ok ⟨"hlo".data, [Step.replace 1 1 (some "h")]⟩
      ∧ "hlo".data ≠ "hilo".data := by
  constructor
  · rfl
  · decide

/-- C2 amended: an insert patch translates its index by `+ 1` and
replaces an empty range at that tree position with its first value only;
the "hilo" scenario holds when the engine emits one single-character
insert patch per inserted character. -/
theorem insert_patch_first_value_only :
    (∀ (t : Transaction) (i : Int) (v : String) (vs : List String),
        applyPatchToTransaction t (Patch.insert i (v :: vs)) =
          Except.ok (t.replaceRange (i + 1) (i + 1) v))
      ∧ applyPatches ⟨"lo".data, []⟩ [Patch.insert 0 ["h"], Patch.insert 1 ["i"]] =
          Except.ok
            ⟨"hilo".data, [Step.replace 1 1 (some "h"), Step.replace 2 2 (some "i")]⟩ := by
  constructor
  · intro t i v vs; rfl
  · rfl

/-- C3 counterexample: a pure-deletion range-replace step — ProseMirror
represents it with an empty slice, still present — over `[1, 3)` emits
`delete(0, 2)` AND an insert operation (with empty values), contradicting
"a pure-deletion step yields no insert operation". -/
theorem pure_deletion_emits_empty_insert :
    compileStep (Step.replace 1 3 (some "")) =
        Except.ok
          [InputOp.delete [contentKey] 0 2, InputOp.insert [contentKey] 0 []]
      ∧ hasInsertOp
          [InputOp.delete [contentKey] 0 2, InputOp.insert [contentKey] 0 []] =
          true := by
  constructor
  · rfl
  · rfl

/-- C3 amended: for a range-replace step whose slice is present, a
delete operation `delete(fromPos - 1, toPos - fromPos)` is emitted
exactly when `fromPos ≠ toPos`, and an insert of the slice's characters
is always emitted — with empty values when the slice is empty; only a
step with no slice at all yields a lone delete and no insert. -/
theorem replace_step_compilation (fromPos toPos : Int) (s : String) :
    (InputOp.delete [contentKey] (contentPosFromProsemirrorPos fromPos)
          (toPos - fromPos) ∈
        okOps (compileStep (Step.replace fromPos toPos (some s))) ↔
          fromPos ≠ toPos)
      ∧ InputOp.insert [contentKey] (contentPosFromProsemirrorPos fromPos)
          (splitChars s) ∈
          okOps (compileStep (Step.replace fromPos toPos (some s)))
      ∧ okOps (compileStep (Step.replace fromPos toPos none)) =
          [InputOp.delete [contentKey] (contentPosFromProsemirrorPos fromPos)
            (toPos - fromPos)] := by
  by_cases h : fromPos = toPos <;>
    simp [compileStep, okOps, h]

/-- C4 counterexample: a remove-mark step for the `link` mark kind with
no attributes at all compiles successfully instead of failing with a
missing-attribute error. -/
theorem removeMark_link_missing_url_compiles :
    compileStep (Step.removeMark 1 3 "link" none) =
        Except.ok [InputOp.removeMark [contentKey] 0 1 "link" none]
      ∧ (compileStep (Step.removeMark 1 3 "link" none)).isOk = true := by
  constructor
  · rfl
  · rfl

/-- C4 amended: on add-mark steps, `comment` requires a string `id` and
`link` a string `url`, each failing otherwise; on remove-mark steps only
`comment`'s `id` is checked — a `link` remove-mark step always compiles,
whatever its attributes; unrecognized mark kinds fail on both step
kinds. -/
theorem mark_step_attribute_checks (fromPos toPos : Int)
    (attrs : Option Attrs) (name : String) :
    ((compileStep (Step.addMark fromPos toPos "comment" attrs)).isOk = true ↔
        (getStringAttr attrs "id").isSome = true)
      ∧ ((compileStep (Step.addMark fromPos toPos "link" attrs)).isOk = true ↔
          (getStringAttr attrs "url").isSome = true)
      ∧ ((compileStep (Step.removeMark fromPos toPos "comment" attrs)).isOk = true ↔
          (getStringAttr attrs "id").isSome = true)
      ∧ (compileStep (Step.removeMark fromPos toPos "link" attrs)).isOk = true
      ∧ (isMarkType name = false →
          compileStep (Step.addMark fromPos toPos name attrs) =
              Except.error (CompileError.unsupportedMark name)
            ∧ compileStep (Step.removeMark fromPos toPos name attrs) =
              Except.error (CompileError.unsupportedMark name)) := by
  have hc : isMarkType "comment" = true := by decide
  have hl : isMarkType "link" = true := by decide
  refine ⟨?_, ?_, ?_, ?_, ?_⟩
  · cases h : getStringAttr attrs "id" <;>
      simp [compileStep, h, hc, Except.isOk, Except.toBool]
  · cases h : getStringAttr attrs "url" <;>
      simp [compileStep, h, hl, Except.isOk, Except.toBool]
  · cases h : getStringAttr attrs "id" <;>
      simp [compileStep, h, hc, Except.isOk, Except.toBool]
  · simp [compileStep, hl, Except.isOk, Except.toBool]
  · intro h
    constructor <;> simp [compileStep, h]

/-- C4 witness: the unrecognized mark kind "blockquote" makes add-mark
compilation fail. -/
theorem mark_step_attribute_checks_witness :
    compileStep (Step.addMark 1 3 "blockquote" none) =
      Except.error (CompileError.unsupportedMark "blockquote") :=
  ((mark_step_attribute_checks 1 3 none "blockquote").2.2.2.2 (by decide)).1

/-- C5 counterexample: a span whose `comment` mark value is a list
holding a single entry with `active = false` still yields one emitted
mark instance, contradicting "one mark instance per active list
entry". -/
theorem inactive_list_entry_emits_instance :
    spanMarkInstances ⟨"a", [("comment", SpanMarkValue.list [⟨false, []⟩])]⟩ =
        [("comment", ⟨false, []⟩)]
      ∧ ([("comment", (⟨false, []⟩ : MarkEntry))] :
          List (String × MarkEntry)) ≠ [] := by
  constructor
  · rfl
  · simp

/-- C5 amended: mark kinds are iterated in the fixed declaration order
`ALL_MARKS`; a list-valued mark contributes one instance per list entry
regardless of any active flag, while a single-valued mark contributes an
instance only when its active flag is set — the imperative push loop
equals this declaration-order description. -/
theorem spanMarkInstances_declaration_order (span : FormatSpanWithText) :
    spanMarkInstances span = spanMarkInstancesSpec span := by
  unfold spanMarkInstances spanMarkInstancesSpec
  rw [spanMarkInstances_foldl span ALL_MARKS []]
  simp

/-- C9: compiling a transaction's steps concatenates each step's
operations in step order; the compiler returns no change (`none`,
never calling the engine's `change`) exactly when that concatenation is
empty, and otherwise submits the whole concatenation as one change. -/
theorem applyTransaction_change_submission (steps : List Step) :
    compileSteps steps = compileStepsSpec steps
      ∧ applyTransaction steps =
          Except.map (fun ops => if ops = [] then none else some ops)
            (compileStepsSpec steps) := by
  refine ⟨compileSteps_eq_spec steps, ?_⟩
  unfold applyTransaction
  rw [compileSteps_eq_spec steps]
  cases h : compileStepsSpec steps with
  | error e => rfl
  | ok ops =>
    cases ops with
    | nil => rfl
    | cons op rest =>
      simp [Except.map, Bind.bind, Except.bind]

/-- C10: the subscribe handler, given an empty batch of incoming
changes, returns at once: the engine's `applyChange` is invoked zero
times, the CRDT document and the view state are returned unchanged, and
`view.updateState` is not called. -/
theorem empty_batch_no_effect (D C : Type)
    (applyChangeFn : D → C → D × List Patch) (doc : D) (state : List Char) :
    handleIncomingChanges applyChangeFn doc state ([] : List C) =
      Except.ok (doc, state, 0, false) := rfl

end Bridge



